import Mathlib

/-!
Verification of the `rekordbox_analyzer` core: the Collection Store
(`rekordbox_xml_parser.py`) and the Path Resolver
(`find_track_by_filepath.py`).

Strings are modelled as lists of characters (`Str`). Percent decoding and
encoding (`urllib.parse.unquote` / `urllib.parse.quote` with the default
`safe` set `"/"`) are modelled at the byte level: a character stands for one
byte, and theorems that rely on the decode/encode round trip carry the
hypothesis that every character code is below 256. Within that universe the
model matches the Python functions exactly on the percent grammar, including
malformed escapes being passed through unchanged.
-/

namespace Rekordbox

/-- A Python string, modelled as its list of character codes. -/
abbrev Str := List Char

/-- Initial-segment test: `startsWith pre s` is true when `pre` is an
initial segment of `s`; mirrors Python's `str.startswith`. -/
def startsWith : Str → Str → Bool
  | [], _ => true
  | _ :: _, [] => false
  | a :: p, b :: s => if a = b then startsWith p s else false

/-- The fixed scheme+host marker `'file://localhost'` from
`find_track_by_filepath.py`. -/
def markerS : Str := ['f', 'i', 'l', 'e', ':', '/', '/', 'l', 'o', 'c', 'a', 'l', 'h', 'o', 's', 't']

/-- Hex-digit test used by percent decoding, as in `int(item[:2], 16)`:
`0-9`, `A-F`, `a-f`. -/
def isHexDigit (c : Char) : Bool :=
  decide (48 ≤ c.toNat ∧ c.toNat ≤ 57) ||
  decide (65 ≤ c.toNat ∧ c.toNat ≤ 70) ||
  decide (97 ≤ c.toNat ∧ c.toNat ≤ 102)

/-- Value of a hex digit character. -/
def hexVal (c : Char) : Nat :=
  if c.toNat ≤ 57 then c.toNat - 48
  else if c.toNat ≤ 70 then c.toNat - 55
  else c.toNat - 87

/-- Upper-case hex digit for a value below 16, as produced by
`urllib.parse.quote`. -/
def hexDigit (n : Nat) : Char :=
  if n < 10 then Char.ofNat (48 + n) else Char.ofNat (55 + n)

/-- `urllib.parse.unquote` at the byte level: `%XY` with two hex digits
decodes to the byte `0xXY`; a `%` not followed by two hex digits is passed
through unchanged (Python leaves such escapes as-is). -/
def unquote : Str → Str
  | [] => []
  | c :: rest =>
    if c = '%' then
      match rest with
      | a :: b :: rest2 =>
        if isHexDigit a && isHexDigit b then
          Char.ofNat (16 * hexVal a + hexVal b) :: unquote rest2
        else '%' :: unquote (a :: b :: rest2)
      | [a] => '%' :: unquote [a]
      | [] => ['%']
    else c :: unquote rest

/-- Characters `urllib.parse.quote(-, safe := the solidus)` leaves unencoded:
ASCII letters, digits, `_.-~` and `/`. -/
def isSafe (c : Char) : Bool :=
  decide (48 ≤ c.toNat ∧ c.toNat ≤ 57) ||
  decide (65 ≤ c.toNat ∧ c.toNat ≤ 90) ||
  decide (97 ≤ c.toNat ∧ c.toNat ≤ 122) ||
  decide (c.toNat = 95) || decide (c.toNat = 46) ||
  decide (c.toNat = 45) || decide (c.toNat = 126) || decide (c.toNat = 47)

/-- Encoding of one byte by `urllib.parse.quote`. -/
def quoteChar (c : Char) : Str :=
  if isSafe c then [c]
  else ['%', hexDigit (c.toNat / 16 % 16), hexDigit (c.toNat % 16)]

/-- `urllib.parse.quote` with the default safe set, at the byte level. -/
def quote : Str → Str
  | [] => []
  | c :: rest => quoteChar c ++ quote rest

/-- The marker-stripping step of the decoded-fallback comparison in
`find_track_by_filepath`: `if s.startswith('file://localhost'): s = s[16:]`. -/
def strip_marker (s : Str) : Str :=
  if startsWith markerS s then s.drop markerS.length else s

/-- First phase of `TrackByFilePathFinder._normalize_filepath`: unify the
`file://localhost` marker, inserting a separator when the path is not
rooted. -/
def ensure_marker (filepath : Str) : Str :=
  if startsWith markerS filepath then filepath
  else if startsWith ['/'] filepath then markerS ++ filepath
  else markerS ++ '/' :: filepath

/-- `TrackByFilePathFinder._normalize_filepath`: ensure the marker, split off
the path component after the marker, decode then re-encode it, and
re-attach the marker. The source wraps the decode/encode in `try/except`
with pass-through on failure; in this byte-level model `unquote` and
`quote` are total, so the exceptional branch is unreachable and the
happy path is the whole function. -/
def normalize_filepath (filepath : Str) : Str :=
  markerS ++ quote (unquote ((ensure_marker filepath).drop markerS.length))

/-- A parsed XML element, as exposed by `xml.etree.ElementTree`: a tag, an
attribute list and the list of direct children. -/
inductive XMLElement : Type where
  | mk : Str → List (Str × Str) → List XMLElement → XMLElement

/-- The element's tag. -/
def XMLElement.tag : XMLElement → Str
  | .mk t _ _ => t

/-- The element's attributes. -/
def XMLElement.attrs : XMLElement → List (Str × Str)
  | .mk _ a _ => a

/-- The element's direct children. -/
def XMLElement.children : XMLElement → List XMLElement
  | .mk _ _ c => c

/-- Attribute lookup, as `Element.get(name)`: the value when the attribute is
present, `none` otherwise. -/
def attr_lookup (name : Str) : List (Str × Str) → Option Str
  | [] => none
  | (k, v) :: rest => if k = name then some v else attr_lookup name rest

/-- `Element.get(name)`. -/
def XMLElement.get (e : XMLElement) (name : Str) : Option Str :=
  attr_lookup name e.attrs

/-- `Element.findall(tag)`: the direct children with the given tag, in
document order. -/
def XMLElement.findall (e : XMLElement) (t : Str) : List XMLElement :=
  e.children.filter (fun c => decide (c.tag = t))

/-- `Element.find(tag)`: the first direct child with the given tag. -/
def XMLElement.find (e : XMLElement) (t : Str) : Option XMLElement :=
  e.children.find? (fun c => decide (c.tag = t))

/-- Model of the external `html.unescape` collaborator (Python standard
library, not part of this repository), restricted to the five basic
character references; the claims verified here do not depend on the full
entity table. -/
def html_unescape : Str → Str
  | '&' :: 'a' :: 'm' :: 'p' :: ';' :: rest => '&' :: html_unescape rest
  | '&' :: 'l' :: 't' :: ';' :: rest => '<' :: html_unescape rest
  | '&' :: 'g' :: 't' :: ';' :: rest => '>' :: html_unescape rest
  | '&' :: 'q' :: 'u' :: 'o' :: 't' :: ';' :: rest => '"' :: html_unescape rest
  | '&' :: '#' :: '3' :: '9' :: ';' :: rest => '\'' :: html_unescape rest
  | c :: rest => c :: html_unescape rest
  | [] => []

/-- One entry of the `TEMPO` list built by `_parse_track`. -/
structure TempoInfo where
  Inizio : Option Str
  Bpm : Option Str
  Metro : Option Str
  Battito : Option Str
deriving DecidableEq

/-- One entry of the `POSITION_MARK` list built by `_parse_track`; the source
dict key `'Type'` is a reserved word in Lean and is rendered `Type'`. -/
structure PositionMarkInfo where
  Name : Option Str
  Type' : Option Str
  Start : Option Str
  Num : Option Str
  Red : Option Str
  Green : Option Str
  Blue : Option Str
deriving DecidableEq

/-- The dictionary built by `RekordboxXMLParser._parse_track`, one field per
key. `TEMPO` and `POSITION_MARK` are `Option` lists because the source only
inserts those keys when at least one matching sub-element exists. -/
structure TrackInfo where
  TrackID : Option Str
  Name : Str
  Artist : Str
  Composer : Str
  Album : Str
  Grouping : Option Str
  Genre : Option Str
  Kind : Option Str
  Size : Option Str
  TotalTime : Option Str
  DiscNumber : Option Str
  TrackNumber : Option Str
  Year : Option Str
  AverageBpm : Option Str
  DateAdded : Option Str
  BitRate : Option Str
  SampleRate : Option Str
  Comments : Option Str
  PlayCount : Option Str
  Rating : Option Str
  Location : Option Str
  Remixer : Option Str
  Tonality : Option Str
  Label : Option Str
  Mix : Option Str
  TEMPO : Option (List TempoInfo)
  POSITION_MARK : Option (List PositionMarkInfo)
deriving DecidableEq

/-- The `TEMPO` sub-dictionary of `_parse_track`. -/
def parse_tempo (te : XMLElement) : TempoInfo :=
  { Inizio := te.get ("Inizio".toList)
    Bpm := te.get ("Bpm".toList)
    Metro := te.get ("Metro".toList)
    Battito := te.get ("Battito".toList) }

/-- The `POSITION_MARK` sub-dictionary of `_parse_track`. -/
def parse_mark (mk : XMLElement) : PositionMarkInfo :=
  { Name := mk.get ("Name".toList)
    Type' := mk.get ("Type".toList)
    Start := mk.get ("Start".toList)
    Num := mk.get ("Num".toList)
    Red := mk.get ("Red".toList)
    Green := mk.get ("Green".toList)
    Blue := mk.get ("Blue".toList) }

/-- `RekordboxXMLParser._parse_track`: plain attributes are copied (the four
descriptive fields through `html.unescape` with default `''`), and the
`TEMPO` / `POSITION_MARK` keys are added only when the corresponding
sub-element lists are non-empty. -/
def parse_track (tr : XMLElement) : TrackInfo :=
  let tempos := tr.findall ("TEMPO".toList)
  let marks := tr.findall ("POSITION_MARK".toList)
  { TrackID := tr.get ("TrackID".toList)
    Name := html_unescape ((tr.get ("Name".toList)).getD [])
    Artist := html_unescape ((tr.get ("Artist".toList)).getD [])
    Composer := html_unescape ((tr.get ("Composer".toList)).getD [])
    Album := html_unescape ((tr.get ("Album".toList)).getD [])
    Grouping := tr.get ("Grouping".toList)
    Genre := tr.get ("Genre".toList)
    Kind := tr.get ("Kind".toList)
    Size := tr.get ("Size".toList)
    TotalTime := tr.get ("TotalTime".toList)
    DiscNumber := tr.get ("DiscNumber".toList)
    TrackNumber := tr.get ("TrackNumber".toList)
    Year := tr.get ("Year".toList)
    AverageBpm := tr.get ("AverageBpm".toList)
    DateAdded := tr.get ("DateAdded".toList)
    BitRate := tr.get ("BitRate".toList)
    SampleRate := tr.get ("SampleRate".toList)
    Comments := tr.get ("Comments".toList)
    PlayCount := tr.get ("PlayCount".toList)
    Rating := tr.get ("Rating".toList)
    Location := tr.get ("Location".toList)
    Remixer := tr.get ("Remixer".toList)
    Tonality := tr.get ("Tonality".toList)
    Label := tr.get ("Label".toList)
    Mix := tr.get ("Mix".toList)
    TEMPO := if tempos.isEmpty then none else some (tempos.map parse_tempo)
    POSITION_MARK := if marks.isEmpty then none else some (marks.map parse_mark) }

/-- `RekordboxXMLParser._load_xml`: the external `ET.parse` call is modelled
as an `Option XMLElement` (`none` stands for a document that is not
well-formed, or not readable); the wrapper turns a failed parse into a
raised exception, modelled as `Except.error`. -/
def load_xml (doc : Option XMLElement) : Except Unit XMLElement :=
  match doc with
  | none => Except.error ()
  | some root => Except.ok root

/-- `RekordboxXMLParser.get_all_tracks`: the `TRACK` children of the
`COLLECTION` section in document order, or `[]` when the section is
absent. -/
def get_all_tracks (root : XMLElement) : List TrackInfo :=
  match root.find ("COLLECTION".toList) with
  | none => []
  | some collection => (collection.findall ("TRACK".toList)).map parse_track

/-- `RekordboxXMLParser.get_track_by_id`: first `TRACK` whose `TrackID`
attribute equals the given id, or `none`. -/
def get_track_by_id (root : XMLElement) (track_id : Str) : Option TrackInfo :=
  match root.find ("COLLECTION".toList) with
  | none => none
  | some collection =>
    ((collection.findall ("TRACK".toList)).find?
      (fun tr => decide (tr.get ("TrackID".toList) = some track_id))).map parse_track

/-- Lower-casing as `str.lower`, restricted to ASCII as in `Char.toLower`. -/
def str_lower (s : Str) : Str := s.map Char.toLower

/-- Python's substring containment `sub in s`. -/
def has_sub (sub : Str) : Str → Bool
  | [] => decide (sub = [])
  | c :: rest => startsWith sub (c :: rest) || has_sub sub rest

/-- `RekordboxXMLParser.get_tracks_by_name`: case-insensitive substring match
against the `Name` attribute (absent compares as `''`). -/
def get_tracks_by_name (root : XMLElement) (name : Str) : List TrackInfo :=
  match root.find ("COLLECTION".toList) with
  | none => []
  | some collection =>
    ((collection.findall ("TRACK".toList)).filter
      (fun tr => has_sub (str_lower name) (str_lower ((tr.get ("Name".toList)).getD [])))).map
      parse_track

/-- `RekordboxXMLParser.get_tracks_by_artist`: case-insensitive substring
match against the `Artist` attribute. -/
def get_tracks_by_artist (root : XMLElement) (artist : Str) : List TrackInfo :=
  match root.find ("COLLECTION".toList) with
  | none => []
  | some collection =>
    ((collection.findall ("TRACK".toList)).filter
      (fun tr => has_sub (str_lower artist) (str_lower ((tr.get ("Artist".toList)).getD [])))).map
      parse_track

/-- The per-track comparison of the matching loop in
`TrackByFilePathFinder.find_track_by_filepath`: the canonical-form
comparison, then the decoded-fallback comparison. -/
def location_matches (target loc : Str) : Bool :=
  decide (normalize_filepath target = normalize_filepath loc) ||
  decide (strip_marker (unquote target) = strip_marker (unquote loc))

/-- One iteration of the matching loop: tracks with an absent or empty
`Location` are skipped (`if track.get('Location'):`), any other track is
tested by `location_matches`. -/
def track_matches (target : Str) (t : TrackInfo) : Bool :=
  match t.Location with
  | none => false
  | some loc => !loc.isEmpty && location_matches target loc

/-- `TrackByFilePathFinder.find_track_by_filepath`, with the track list of
`get_all_tracks` passed explicitly: return the first track matching under
either comparison, `none` when the scan completes without a match. -/
def find_track_by_filepath (target : Str) : List TrackInfo → Option TrackInfo
  | [] => none
  | t :: rest =>
    if track_matches target t then some t else find_track_by_filepath target rest

/-- A track record whose only populated field is `Location`; used to build
concrete track lists for the resolver. -/
def track_with_location (loc : Str) : TrackInfo :=
  { TrackID := none, Name := [], Artist := [], Composer := [], Album := []
    Grouping := none, Genre := none, Kind := none, Size := none
    TotalTime := none, DiscNumber := none, TrackNumber := none, Year := none
    AverageBpm := none, DateAdded := none, BitRate := none, SampleRate := none
    Comments := none, PlayCount := none, Rating := none, Location := some loc
    Remixer := none, Tonality := none, Label := none, Mix := none
    TEMPO := none, POSITION_MARK := none }

theorem hexDigit_spec : ∀ n, n < 16 → isHexDigit (hexDigit n) = true ∧ hexVal (hexDigit n) = n := by
  decide

theorem hexVal_lt_of_isHexDigit {c : Char} (h : isHexDigit c = true) : hexVal c < 16 := by
  simp only [isHexDigit, Bool.or_eq_true, decide_eq_true_eq] at h
  unfold hexVal
  generalize c.toNat = n at h ⊢
  rcases h with h | h | h <;> split <;> (try split) <;> omega

theorem isSafe_ne_percent {c : Char} (h : isSafe c = true) : c ≠ '%' := by
  intro he
  rw [he] at h
  exact absurd h (by decide)

theorem unquote_nil : unquote [] = [] := rfl

theorem unquote_cons_ne {c : Char} (l : Str) (h : c ≠ '%') :
    unquote (c :: l) = c :: unquote l := by
  rw [unquote.eq_def]
  simp [h]

theorem unquote_percent_hex {a b : Char} (l : Str) (ha : isHexDigit a = true)
    (hb : isHexDigit b = true) :
    unquote ('%' :: a :: b :: l) = Char.ofNat (16 * hexVal a + hexVal b) :: unquote l := by
  rw [unquote.eq_def]
  simp [ha, hb]

theorem unquote_percent_not_hex {a b : Char} (l : Str)
    (h : ¬(isHexDigit a && isHexDigit b) = true) :
    unquote ('%' :: a :: b :: l) = '%' :: unquote (a :: b :: l) := by
  rw [unquote.eq_def]
  simp [h]

theorem quote_cons (c : Char) (l : Str) : quote (c :: l) = quoteChar c ++ quote l := by
  rw [quote.eq_def]

set_option maxRecDepth 4096 in
theorem ofNat_toNat_lt : ∀ n, n < 256 → (Char.ofNat n).toNat < 256 := by decide

theorem unquote_quote (l : Str) (h : ∀ c ∈ l, c.toNat < 256) : unquote (quote l) = l := by
  induction l with
  | nil => rfl
  | cons c rest ih =>
    have hc : c.toNat < 256 := h c (List.mem_cons_self c rest)
    have hr : ∀ x ∈ rest, x.toNat < 256 := fun x hx => h x (List.mem_cons_of_mem c hx)
    rw [quote_cons]
    by_cases hs : isSafe c = true
    · rw [show quoteChar c = [c] from by simp [quoteChar, hs]]
      rw [List.singleton_append, unquote_cons_ne _ (isSafe_ne_percent hs), ih hr]
    · rw [show quoteChar c = ['%', hexDigit (c.toNat / 16 % 16), hexDigit (c.toNat % 16)]
        from by simp [quoteChar, hs]]
      have hdiv : c.toNat / 16 % 16 < 16 := Nat.mod_lt _ (by omega)
      have hmod : c.toNat % 16 < 16 := Nat.mod_lt _ (by omega)
      have h1 := hexDigit_spec _ hdiv
      have h2 := hexDigit_spec _ hmod
      rw [List.cons_append, List.cons_append, List.cons_append, List.nil_append,
        unquote_percent_hex _ h1.1 h2.1, h1.2, h2.2]
      have hdiv' : c.toNat / 16 % 16 = c.toNat / 16 := Nat.mod_eq_of_lt (by omega)
      rw [hdiv', Nat.div_add_mod c.toNat 16, Char.ofNat_toNat, ih hr]

theorem unquote_mem : ∀ l : Str, ∀ c ∈ unquote l, c ∈ l ∨ c.toNat < 256 := by
  intro l
  induction l using unquote.induct with
  | case1 => intro c hc; exact absurd hc (List.not_mem_nil c)
  | case2 a b rest2 hhex ih =>
    intro x hx
    have ha : isHexDigit a = true := by
      rcases Bool.and_eq_true .. |>.mp hhex with ⟨h1, _⟩; exact h1
    have hb : isHexDigit b = true := by
      rcases Bool.and_eq_true .. |>.mp hhex with ⟨_, h2⟩; exact h2
    rw [unquote_percent_hex _ ha hb] at hx
    rcases List.mem_cons.mp hx with h | h
    · subst h
      right
      refine ofNat_toNat_lt _ ?_
      have := hexVal_lt_of_isHexDigit ha
      have := hexVal_lt_of_isHexDigit hb
      omega
    · rcases ih x h with h' | h'
      · exact Or.inl (by simp [h'])
      · exact Or.inr h'
  | case3 a b rest2 hhex ih =>
    intro x hx
    rw [unquote_percent_not_hex _ hhex] at hx
    rcases List.mem_cons.mp hx with h | h
    · exact Or.inl (by simp [h])
    · rcases ih x h with h' | h'
      · exact Or.inl (List.mem_cons_of_mem _ h')
      · exact Or.inr h'
  | case4 a ih =>
    intro x hx
    rw [show unquote ['%', a] = '%' :: unquote [a] from by rw [unquote.eq_def]; rfl] at hx
    rcases List.mem_cons.mp hx with h | h
    · exact Or.inl (by simp [h])
    · rcases ih x h with h' | h'
      · exact Or.inl (List.mem_cons_of_mem _ h')
      · exact Or.inr h'
  | case5 =>
    intro x hx
    rw [show unquote ['%'] = ['%'] from rfl] at hx
    exact Or.inl hx
  | case6 c rest hc ih =>
    intro x hx
    rw [unquote_cons_ne _ hc] at hx
    rcases List.mem_cons.mp hx with h | h
    · exact Or.inl (by simp [h])
    · rcases ih x h with h' | h'
      · exact Or.inl (List.mem_cons_of_mem _ h')
      · exact Or.inr h'

theorem unquote_bytes {l : Str} (h : ∀ c ∈ l, c.toNat < 256) :
    ∀ c ∈ unquote l, c.toNat < 256 := by
  intro c hc
  rcases unquote_mem l c hc with h' | h'
  · exact h c h'
  · exact h'

theorem unquote_no_percent : ∀ l : Str, '%' ∉ l → unquote l = l := by
  intro l
  induction l with
  | nil => intro _; rfl
  | cons c rest ih =>
    intro h
    have hc : c ≠ '%' := fun he => h (he ▸ List.mem_cons_self c rest)
    rw [unquote_cons_ne _ hc, ih (fun hm => h (List.mem_cons_of_mem c hm))]

theorem startsWith_append_self : ∀ pre s : Str, startsWith pre (pre ++ s) = true := by
  intro pre
  induction pre with
  | nil => intro s; rfl
  | cons a p ih => intro s; simp [startsWith, ih]

theorem startsWith_marker_slash (q : Str) : startsWith markerS ('/' :: q) = false := by
  have h : ('f' : Char) ≠ '/' := by decide
  simp [markerS, startsWith, h]

theorem markerS_bytes : ∀ c ∈ markerS, c.toNat < 256 := by decide

theorem normalize_marker (s : Str) :
    normalize_filepath (markerS ++ s) = markerS ++ quote (unquote s) := by
  unfold normalize_filepath ensure_marker
  rw [startsWith_append_self]
  simp [List.drop_left]

theorem normalize_slash (q : Str) :
    normalize_filepath ('/' :: q) = markerS ++ quote (unquote ('/' :: q)) := by
  unfold normalize_filepath ensure_marker
  rw [startsWith_marker_slash]
  simp [startsWith, List.drop_left]

theorem normalize_shape (p : Str) :
    normalize_filepath p = markerS ++ quote (unquote ((ensure_marker p).drop markerS.length)) :=
  rfl

theorem ensure_marker_bytes {p : Str} (h : ∀ c ∈ p, c.toNat < 256) :
    ∀ c ∈ ensure_marker p, c.toNat < 256 := by
  unfold ensure_marker
  split
  · exact h
  · split
    · intro c hc
      rcases List.mem_append.mp hc with h' | h'
      · exact markerS_bytes c h'
      · exact h c h'
    · intro c hc
      rcases List.mem_append.mp hc with h' | h'
      · exact markerS_bytes c h'
      · rcases List.mem_cons.mp h' with h'' | h''
        · rw [h'']; decide
        · exact h c h''

theorem normalize_idem_of_bytes {p : Str} (hp : ∀ c ∈ p, c.toNat < 256) :
    normalize_filepath (normalize_filepath p) = normalize_filepath p := by
  rw [normalize_shape p, normalize_marker]
  have hxb : ∀ c ∈ (ensure_marker p).drop markerS.length, c.toNat < 256 :=
    fun c hc => ensure_marker_bytes hp c (List.drop_subset _ _ hc)
  rw [unquote_quote _ (unquote_bytes hxb)]

theorem strip_marker_of_no_marker {s : Str} (h : startsWith markerS s = false) :
    strip_marker s = s := by
  unfold strip_marker
  rw [h]
  rfl

theorem find_cons (target : Str) (t : TrackInfo) (rest : List TrackInfo) :
    find_track_by_filepath target (t :: rest) =
      if track_matches target t then some t else find_track_by_filepath target rest := by
  rw [find_track_by_filepath.eq_def]

theorem find_append_no_match (target : Str) (T₁ T₂ : List TrackInfo)
    (h : ∀ u ∈ T₁, track_matches target u = false) :
    find_track_by_filepath target (T₁ ++ T₂) = find_track_by_filepath target T₂ := by
  induction T₁ with
  | nil => rfl
  | cons u T ih =>
    rw [List.cons_append, find_cons, h u (List.mem_cons_self u T),
      ih (fun v hv => h v (List.mem_cons_of_mem u hv))]
    rfl

/-- C3: `Normalize` is idempotent: for every path string `p` (of byte
characters), `Normalize(Normalize(p)) = Normalize(p)`. -/
theorem C3_normalize_idempotent (p : Str) (hp : ∀ c ∈ p, c.toNat < 256) :
    normalize_filepath (normalize_filepath p) = normalize_filepath p :=
  normalize_idem_of_bytes hp

theorem C3_witness :
    (∀ c ∈ ("/Music/a%20b.m4a".toList : Str), c.toNat < 256) ∧
    normalize_filepath (normalize_filepath ("/Music/a%20b.m4a".toList)) =
      normalize_filepath ("/Music/a%20b.m4a".toList) :=
  ⟨by decide, C3_normalize_idempotent ("/Music/a%20b.m4a".toList) (by decide)⟩

/-- C6: prefix invariance: for every bare path starting with the path
separator (`'/' :: q`), normalizing it and normalizing the same path with
the `file://localhost` marker prepended give the same canonical string. -/
theorem C6_marker_invariance (q : Str) :
    normalize_filepath ('/' :: q) = normalize_filepath (markerS ++ '/' :: q) := by
  rw [normalize_slash, normalize_marker]

/-- C10: `Normalize` of the empty string is exactly the marker followed by a
single inserted separator, and `Resolve` of the empty path matches a track
whose location normalizes to that same string. -/
theorem C10_empty_path :
    normalize_filepath ([] : Str) = markerS ++ ['/'] ∧
    find_track_by_filepath [] [track_with_location ['/']] =
      some (track_with_location ['/']) := by
  exact ⟨by decide, by decide⟩

/-- C9: whenever `Resolve` returns a track, that track's location is present
and non-empty: a track with an empty or absent location is never returned. -/
theorem C9_match_has_location (target : Str) (T : List TrackInfo) (t : TrackInfo)
    (h : find_track_by_filepath target T = some t) :
    ∃ loc, t.Location = some loc ∧ loc ≠ [] := by
  induction T with
  | nil => simp [find_track_by_filepath] at h
  | cons u rest ih =>
    rw [find_cons] at h
    by_cases hm : track_matches target u = true
    · rw [if_pos hm] at h
      injection h with he
      subst he
      unfold track_matches at hm
      cases hl : u.Location with
      | none => rw [hl] at hm; cases hm
      | some loc =>
        rw [hl] at hm
        rcases Bool.and_eq_true .. |>.mp hm with ⟨hne, _⟩
        refine ⟨loc, rfl, ?_⟩
        intro he
        rw [he] at hne
        cases hne
    · rw [if_neg hm] at h
      exact ih h

theorem C9_witness :
    find_track_by_filepath ("/a.m4a".toList) [track_with_location ("/a.m4a".toList)] =
      some (track_with_location ("/a.m4a".toList)) ∧
    ∃ loc, (track_with_location ("/a.m4a".toList)).Location = some loc ∧ loc ≠ [] :=
  ⟨by decide, C9_match_has_location ("/a.m4a".toList)
    [track_with_location ("/a.m4a".toList)] (track_with_location ("/a.m4a".toList)) (by decide)⟩

/-- C7: `Normalize` and `Resolve` are total: in this model `Normalize` always
returns the marker followed by an encoded path component (the source's
internal `try/except` cannot fire since decode/encode are total here), and
`Resolve` returns the explicit `none` exactly when no track in the list
matches — never an error. -/
theorem C7_total_resolution (target : Str) (T : List TrackInfo) :
    (∃ q, normalize_filepath target = markerS ++ q) ∧
    (find_track_by_filepath target T = none ↔ T.any (track_matches target) = false) := by
  refine ⟨⟨_, rfl⟩, ?_⟩
  induction T with
  | nil => simp [find_track_by_filepath]
  | cons u rest ih =>
    rw [find_cons]
    by_cases hm : track_matches target u = true
    · simp [hm]
    · rw [Bool.not_eq_true] at hm
      simp [hm, ih]

/-- C5: the resolver scans in listing order and returns the first track whose
location matches under either comparison; the tracks after the first match
(`T₂`, universally quantified) are never consulted, and there is no
best-match selection. -/
theorem C5_first_match_wins (target : Str) (T₁ T₂ : List TrackInfo) (t : TrackInfo)
    (h₁ : ∀ u ∈ T₁, track_matches target u = false)
    (h₂ : track_matches target t = true) :
    find_track_by_filepath target (T₁ ++ t :: T₂) = some t := by
  rw [find_append_no_match target T₁ _ h₁, find_cons, if_pos h₂]

theorem C5_witness :
    find_track_by_filepath ("/b.m4a".toList)
      ([track_with_location ("/x.m4a".toList)] ++
        track_with_location ("/b.m4a".toList) ::
          [track_with_location ("file://localhost/b.m4a".toList)]) =
      some (track_with_location ("/b.m4a".toList)) :=
  C5_first_match_wins ("/b.m4a".toList) _ _ _ (by decide) (by decide)

/-- C1 counterexample: a single-track list whose location is the doubly
percent-encoded `'/%2541'`. Resolving the location itself succeeds, but
resolving its percent-encoded form and resolving its percent-decoded
marker-stripped form both return no match, contradicting the claim. -/
theorem C1_counterexample :
    find_track_by_filepath ("/%2541".toList)
        [track_with_location ("/%2541".toList)] =
      some (track_with_location ("/%2541".toList)) ∧
    find_track_by_filepath (quote ("/%2541".toList))
        [track_with_location ("/%2541".toList)] = none ∧
    find_track_by_filepath (strip_marker (unquote ("/%2541".toList)))
        [track_with_location ("/%2541".toList)] = none := by
  exact ⟨by decide, by decide, by decide⟩

/-- C1 (amended): for a track `t` with non-empty location `L` (byte
characters), with no earlier track matching any of the three query forms,
`Resolve(L, T) = t`; and provided `L` contains no percent character and its
marker-stripped form does not itself begin with the marker,
`Resolve(percent_encoded(L), T) = t` and
`Resolve(percent_decoded_without_marker(L), T) = t` as well. -/
theorem C1_match_correctness (L : Str) (t : TrackInfo) (T₁ T₂ : List TrackInfo)
    (hloc : t.Location = some L) (hne : L ≠ [])
    (hbytes : ∀ c ∈ L, c.toNat < 256) (hpct : '%' ∉ L)
    (hmk : startsWith markerS (strip_marker L) = false)
    (h₁ : ∀ u ∈ T₁, track_matches L u = false)
    (h₂ : ∀ u ∈ T₁, track_matches (quote L) u = false)
    (h₃ : ∀ u ∈ T₁, track_matches (strip_marker (unquote L)) u = false) :
    find_track_by_filepath L (T₁ ++ t :: T₂) = some t ∧
    find_track_by_filepath (quote L) (T₁ ++ t :: T₂) = some t ∧
    find_track_by_filepath (strip_marker (unquote L)) (T₁ ++ t :: T₂) = some t := by
  have hLne : L.isEmpty = false := by
    cases L with
    | nil => exact absurd rfl hne
    | cons a l => rfl
  have hL : unquote L = L := unquote_no_percent L hpct
  have hqL : unquote (quote L) = L := unquote_quote L hbytes
  have hDpct : '%' ∉ strip_marker L := by
    unfold strip_marker
    split
    · exact fun hm => hpct (List.drop_subset _ _ hm)
    · exact hpct
  have hD : unquote (strip_marker L) = strip_marker L := unquote_no_percent _ hDpct
  have m1 : track_matches L t = true := by
    unfold track_matches
    rw [hloc]
    simp [hLne, location_matches]
  have m2 : track_matches (quote L) t = true := by
    unfold track_matches
    rw [hloc]
    simp only [location_matches, hqL, hL, hLne, Bool.not_false, Bool.true_and]
    simp
  have m3 : track_matches (strip_marker (unquote L)) t = true := by
    unfold track_matches
    rw [hloc]
    simp only [location_matches, hL, hD, strip_marker_of_no_marker hmk, hLne,
      Bool.not_false, Bool.true_and]
    simp
  exact ⟨by rw [find_append_no_match _ _ _ h₁, find_cons, if_pos m1],
    by rw [find_append_no_match _ _ _ h₂, find_cons, if_pos m2],
    by rw [find_append_no_match _ _ _ h₃, find_cons, if_pos m3]⟩

theorem C1_witness :
    find_track_by_filepath ("/a b.m4a".toList)
        ([track_with_location ("/z".toList)] ++
          track_with_location ("/a b.m4a".toList) :: []) =
      some (track_with_location ("/a b.m4a".toList)) ∧
    find_track_by_filepath (quote ("/a b.m4a".toList))
        ([track_with_location ("/z".toList)] ++
          track_with_location ("/a b.m4a".toList) :: []) =
      some (track_with_location ("/a b.m4a".toList)) ∧
    find_track_by_filepath (strip_marker (unquote ("/a b.m4a".toList)))
        ([track_with_location ("/z".toList)] ++
          track_with_location ("/a b.m4a".toList) :: []) =
      some (track_with_location ("/a b.m4a".toList)) :=
  C1_match_correctness ("/a b.m4a".toList) _ _ [] rfl (by decide) (by decide)
    (by decide) (by decide) (by decide) (by decide) (by decide)

/-- A `TRACK` element with no sub-elements at all. -/
def bare_track_elem : XMLElement :=
  XMLElement.mk ("TRACK".toList) [("TrackID".toList, "1".toList)] []

/-- A `TRACK` element with one `TEMPO` and one `POSITION_MARK` sub-element. -/
def marked_track_elem : XMLElement :=
  XMLElement.mk ("TRACK".toList) [("TrackID".toList, "2".toList)]
    [XMLElement.mk ("TEMPO".toList) [("Bpm".toList, "120.00".toList)] [],
     XMLElement.mk ("POSITION_MARK".toList) [("Num".toList, "-1".toList)] []]

/-- C2 counterexample: a `TRACK` section with no tempo-marker and no
position-mark sub-sections parses to a record in which both fields are
absent (`none`), not empty sequences: `_parse_track` only inserts the
`TEMPO` / `POSITION_MARK` keys when at least one sub-element exists. -/
theorem C2_counterexample :
    (parse_track bare_track_elem).TEMPO = none ∧
    (parse_track bare_track_elem).POSITION_MARK = none := by
  exact ⟨by decide, by decide⟩

/-- C2 (amended): the tempo-marker and position-mark fields of a parsed track
are absent exactly when the source section has no corresponding
sub-section; when sub-sections exist the fields hold the sequence of their
parsed forms in document order. -/
theorem C2_tempo_marks_presence (tr : XMLElement) :
    ((parse_track tr).TEMPO = none ↔ tr.findall ("TEMPO".toList) = []) ∧
    ((parse_track tr).POSITION_MARK = none ↔ tr.findall ("POSITION_MARK".toList) = []) ∧
    ((parse_track tr).TEMPO.getD ((tr.findall ("TEMPO".toList)).map parse_tempo) =
      (tr.findall ("TEMPO".toList)).map parse_tempo) ∧
    ((parse_track tr).POSITION_MARK.getD
        ((tr.findall ("POSITION_MARK".toList)).map parse_mark) =
      (tr.findall ("POSITION_MARK".toList)).map parse_mark) := by
  unfold parse_track
  refine ⟨?_, ?_, ?_, ?_⟩ <;>
    simp only [Option.getD] <;> split <;>
      simp_all [List.isEmpty_iff]

theorem C2_witness :
    (parse_track marked_track_elem).TEMPO ≠ none ∧
    (parse_track marked_track_elem).POSITION_MARK ≠ none := by
  have h := C2_tempo_marks_presence marked_track_elem
  have e1 : marked_track_elem.findall ("TEMPO".toList) =
      [XMLElement.mk ("TEMPO".toList) [("Bpm".toList, "120.00".toList)] []] := rfl
  have e2 : marked_track_elem.findall ("POSITION_MARK".toList) =
      [XMLElement.mk ("POSITION_MARK".toList) [("Num".toList, "-1".toList)] []] := rfl
  refine ⟨fun he => ?_, fun he => ?_⟩
  · have h0 := h.1.mp he
    rw [e1] at h0
    exact List.cons_ne_nil _ _ h0
  · have h0 := h.2.1.mp he
    rw [e2] at h0
    exact List.cons_ne_nil _ _ h0

/-- A well-formed root element whose top-level `COLLECTION` section is
absent. -/
def rootless_doc : XMLElement :=
  XMLElement.mk ("DJ_PLAYLISTS".toList) []
    [XMLElement.mk ("PLAYLISTS".toList) [] []]

/-- C4: construction fails with the parse error exactly when the external
parser cannot produce a document at all; on a well-formed document without
a top-level `COLLECTION` section construction succeeds and every lookup
deterministically returns an empty result or `none` instead of raising. -/
theorem C4_tolerant_empty_store :
    (∀ doc : Option XMLElement, load_xml doc = Except.error () ↔ doc = none) ∧
    (∀ root : XMLElement, root.find ("COLLECTION".toList) = none →
      get_all_tracks root = [] ∧
      (∀ i, get_track_by_id root i = none) ∧
      (∀ s, get_tracks_by_name root s = []) ∧
      (∀ s, get_tracks_by_artist root s = [])) := by
  constructor
  · intro doc
    cases doc with
    | none => simp [load_xml]
    | some root => simp [load_xml]
  · intro root h
    refine ⟨?_, fun i => ?_, fun s => ?_, fun s => ?_⟩
    · unfold get_all_tracks
      rw [h]
    · unfold get_track_by_id
      rw [h]
    · unfold get_tracks_by_name
      rw [h]
    · unfold get_tracks_by_artist
      rw [h]

theorem C4_witness :
    load_xml none = Except.error () ∧
    load_xml (some rootless_doc) = Except.ok rootless_doc ∧
    get_all_tracks rootless_doc = [] ∧
    get_track_by_id rootless_doc ("1".toList) = none ∧
    get_tracks_by_name rootless_doc [] = [] ∧
    get_tracks_by_artist rootless_doc [] = [] :=
  ⟨(C4_tolerant_empty_store.1 none).mpr rfl, rfl,
    (C4_tolerant_empty_store.2 rootless_doc rfl).1,
    (C4_tolerant_empty_store.2 rootless_doc rfl).2.1 ("1".toList),
    (C4_tolerant_empty_store.2 rootless_doc rfl).2.2.1 [],
    (C4_tolerant_empty_store.2 rootless_doc rfl).2.2.2 []⟩

/-- A document whose `COLLECTION` holds two `TRACK` sections with the same
`TrackID` and one with no `TrackID` attribute at all. -/
def dup_id_doc : XMLElement :=
  XMLElement.mk ("DJ_PLAYLISTS".toList) []
    [XMLElement.mk ("COLLECTION".toList) []
      [XMLElement.mk ("TRACK".toList) [("TrackID".toList, "1".toList)] [],
       XMLElement.mk ("TRACK".toList) [("TrackID".toList, "1".toList)] [],
       XMLElement.mk ("TRACK".toList) [] []]]

/-- C8 counterexample: the parser enforces nothing about `TrackID`: a load
whose source repeats an id and omits another still yields all three
records, with duplicate and absent ids, refuting non-emptiness and
uniqueness. -/
theorem C8_counterexample :
    ¬ (List.Pairwise (fun a b : TrackInfo => a.TrackID ≠ b.TrackID)
        (get_all_tracks dup_id_doc) ∧
      ∀ t ∈ get_all_tracks dup_id_doc, t.TrackID ≠ none ∧ t.TrackID ≠ some []) := by
  decide

/-- The collection element of a loaded document, together with the raw
`TrackID` attributes of its `TRACK` sections. -/
def source_track_ids (c : XMLElement) : List (Option Str) :=
  (c.findall ("TRACK".toList)).map (fun tr => tr.get ("TrackID".toList))

/-- C8 (amended): parsing copies the `TrackID` attribute verbatim, so the
loaded records carry non-empty pairwise-distinct ids exactly when the
source `TRACK` sections do; the parser itself enforces no invariant. -/
theorem C8_ids_verbatim (root c : XMLElement)
    (h : root.find ("COLLECTION".toList) = some c) :
    (get_all_tracks root).map TrackInfo.TrackID = source_track_ids c := by
  unfold get_all_tracks source_track_ids
  rw [h]
  rw [List.map_map]
  rfl

theorem C8_witness :
    (get_all_tracks dup_id_doc).map TrackInfo.TrackID =
      source_track_ids (XMLElement.mk ("COLLECTION".toList) []
        [XMLElement.mk ("TRACK".toList) [("TrackID".toList, "1".toList)] [],
         XMLElement.mk ("TRACK".toList) [("TrackID".toList, "1".toList)] [],
         XMLElement.mk ("TRACK".toList) [] []]) :=
  C8_ids_verbatim dup_id_doc _ rfl

end Rekordbox
